import Mathlib

/-!
Verification model of the real-time speech translation pipeline
(speech_translation_pipeline.py).  The VAD chunker loop, the STT worker
loop, the translation worker loop, the TTS manager (queue and speaking
gate) and the startup wiring of main() are embedded as pure Lean
functions; the external engines (whisper, marian, pyttsx3) appear as
oracle inputs at their call sites.
-/

namespace Pipeline

/-! ### Configuration constants (CONFIGURATION block of the source) -/

def SAMPLE_RATE : Nat := 16000

def FRAME_MS : Nat := 30

def CHUNK_MIN_MS : Nat := 200

def QUEUE_SIZE : Nat := 8

/-- frame_bytes = int(SAMPLE_RATE * FRAME_MS / 1000) * 2 (VADChunker.__init__). -/
def FRAME_BYTES : Nat := SAMPLE_RATE * FRAME_MS / 1000 * 2

/-! ### VAD chunker (VADChunker.run) -/

/-- One microphone frame as seen by one iteration of the capture loop:
whether the AEC gate was closed (tts_manager.is_speaking()) when the frame
arrived, and the classification webrtcvad would give it. -/
structure FrameIn where
  gateClosed : Bool
  isSpeech : Bool
deriving Repr, DecidableEq

/-- A gate-open frame classified as silence. -/
def openSil : FrameIn := ⟨false, false⟩

/-- A gate-open frame classified as speech. -/
def openSp : FrameIn := ⟨false, true⟩

/-- The tuple (chunk_start_ms, ts_ms, chunk_buffer, lang_src) put on q_out.
The PCM buffer is abstracted by the list of capture timestamps of the
frames appended to it; each frame contributes FRAME_BYTES bytes. -/
structure AudioChunk where
  start_ms : Nat
  end_ms : Nat
  frames : List Nat
  lang_src : String
deriving Repr, DecidableEq

/-- The local mutable state of VADChunker.run. -/
structure VADState where
  chunkBuffer : List Nat
  chunkStartMs : Nat
  tsMs : Nat
  inSpeech : Bool
  silenceFrames : Nat
deriving Repr, DecidableEq

/-- chunk_buffer = b'', chunk_start_ms = 0, ts_ms = 0, in_speech = False,
silence_frames = 0. -/
def vadInit : VADState := ⟨[], 0, 0, false, 0⟩

/-- Byte length of the abstracted chunk buffer. -/
def bufBytes (buf : List Nat) : Nat := FRAME_BYTES * buf.length

/-- chunk_len_ms = len(chunk_buffer) // 2 * 1000 // SAMPLE_RATE. -/
def chunkLenMs (buf : List Nat) : Nat := bufBytes buf / 2 * 1000 / SAMPLE_RATE

/-- One iteration of the while loop of VADChunker.run on one captured frame;
returns the successor state and the chunk put on q_out, if any. -/
def vadStep (lang : String) (s : VADState) (f : FrameIn) : VADState × Option AudioChunk :=
  if f.gateClosed then
    -- AEC-LITE GATING: ts_ms += FRAME_MS, flush if accumulating and long
    -- enough, reset the speech detection state, continue (frame dropped).
    let ts := s.tsMs + FRAME_MS
    let out : Option AudioChunk :=
      if s.inSpeech ∧ CHUNK_MIN_MS * SAMPLE_RATE * 2 / 1000 ≤ bufBytes s.chunkBuffer then
        some ⟨s.chunkStartMs, ts, s.chunkBuffer, lang⟩
      else none
    (⟨[], s.chunkStartMs, ts, false, 0⟩, out)
  else if f.isSpeech then
    let s1 := if s.inSpeech then s else
      { s with chunkStartMs := s.tsMs, chunkBuffer := [], inSpeech := true, silenceFrames := 0 }
    ({ s1 with chunkBuffer := s1.chunkBuffer ++ [s.tsMs], tsMs := s.tsMs + FRAME_MS }, none)
  else
    let sf := s.silenceFrames + 1
    if s.inSpeech then
      let buf := s.chunkBuffer ++ [s.tsMs]
      if 14 < sf then
        let out : Option AudioChunk :=
          if CHUNK_MIN_MS ≤ chunkLenMs buf then some ⟨s.chunkStartMs, s.tsMs, buf, lang⟩
          else none
        (⟨[], s.chunkStartMs, s.tsMs + FRAME_MS, false, 0⟩, out)
      else
        ({ s with chunkBuffer := buf, silenceFrames := sf, tsMs := s.tsMs + FRAME_MS }, none)
    else
      ({ s with silenceFrames := sf, tsMs := s.tsMs + FRAME_MS }, none)

/-- The capture loop over a finite frame sequence, collecting every chunk
put on q_out. -/
def vadRun (lang : String) (s : VADState) : List FrameIn → VADState × List AudioChunk
  | [] => (s, [])
  | f :: fs =>
    let p := vadStep lang s f
    let r := vadRun lang p.1 fs
    (r.1, p.2.toList ++ r.2)

/-- Timestamps of n consecutive captured frames starting at ts. -/
def tsList (ts : Nat) : Nat → List Nat
  | 0 => []
  | n + 1 => ts :: tsList (ts + FRAME_MS) n

/-! ### TTS manager (TTSManager) -/

/-- Python queue.Queue: maxsize 0 (the default) means an unbounded queue. -/
structure PyQueue where
  maxsize : Nat
  items : List String
deriving Repr, DecidableEq

/-- The condition under which a put on the queue raises queue.Full. -/
def PyQueue.isFull (q : PyQueue) : Bool :=
  decide (0 < q.maxsize ∧ q.maxsize ≤ q.items.length)

/-- put(text, block=False): appends unless the queue is full; the Bool
records whether the item was accepted. -/
def PyQueue.putNowait (q : PyQueue) (x : String) : PyQueue × Bool :=
  if q.isFull then (q, false) else ({ q with items := q.items ++ [x] }, true)

/-- TTSManager state: engine is false when pyttsx3 failed to initialise. -/
structure TTSManagerS where
  engine : Bool
  tts_queue : PyQueue
deriving Repr, DecidableEq

/-- TTSManager.__init__: self.tts_queue = queue.Queue() (constructed with no
capacity bound, i.e. maxsize 0); an init exception is caught and leaves
engine = None. -/
def TTSManagerS.init (engineLoads : Bool) : TTSManagerS :=
  ⟨engineLoads, ⟨0, []⟩⟩

/-- TTSManager.speak: a no-op without an engine; otherwise a non-blocking
put that passes silently when queue.Full is raised. -/
def TTSManagerS.speak (m : TTSManagerS) (text : String) : TTSManagerS :=
  if m.engine then { m with tts_queue := (m.tts_queue.putNowait text).1 } else m

/-- Observable actions of one iteration of TTSManager._worker on a
dequeued text. -/
inductive TTSEv where
  | engage
  | sayStart
  | sayDone
  | logErr
  | cooldown
  | release
deriving Repr, DecidableEq

/-- The try/except/finally body of TTSManager._worker for one request:
_speaking.set(), engine.say/runAndWait (which may raise; the except clause
logs), then in the finally clause time.sleep(0.3) followed by
_speaking.clear().  errs records whether the synthesis call raised. -/
def ttsSpeakCycle (errs : Bool) : List TTSEv :=
  [.engage, .sayStart] ++ (if errs then [.logErr] else [.sayDone]) ++ [.cooldown, .release]

/-- TTSManager._worker services requests sequentially; an error in one
cycle does not stop later cycles.  Each request carries whether its
synthesis raised. -/
def ttsWorkerRun : List (String × Bool) → List TTSEv
  | [] => []
  | r :: rs => ttsSpeakCycle r.2 ++ ttsWorkerRun rs

/-! ### Python string primitives, by character list (kernel-reducible) -/

/-- Python str.strip(): remove leading and trailing whitespace. -/
def pyStrip (s : String) : String :=
  ⟨((s.data.dropWhile Char.isWhitespace).reverse.dropWhile Char.isWhitespace).reverse⟩

/-- Python sep.join(ss). -/
def pyJoin (sep : String) : List String → String
  | [] => ""
  | s :: rest => rest.foldl (fun acc x => acc ++ sep ++ x) s

/-! ### Event schema (make_event) -/

/-- The event dict built by make_event (audio field omitted: it is always
None for the events this pipeline builds). -/
structure Event where
  etype : String
  seq : Nat
  lang_src : String
  lang_tgt : String
  text : String
  is_final : Bool
  start_ms : Option Nat
  end_ms : Option Nat
deriving Repr, DecidableEq

/-- make_event(event_type, seq, lang_src, lang_tgt, text, is_final,
ts_start, ts_end). -/
def make_event (etype : String) (seq : Nat) (lang_src lang_tgt : String)
    (text : String) (is_final : Bool) (ts_start ts_end : Option Nat) : Event :=
  ⟨etype, seq, lang_src, lang_tgt, text, is_final, ts_start, ts_end⟩

/-! ### STT worker (STTWorker.run) -/

/-- One chunk dequeued by STTWorker.run together with the oracle outcomes
of its iteration: the engine result (none when model.transcribe or the
segment iteration raised, otherwise the stripped-to-be segment texts and
the detected language) and whether the downstream put was accepted. -/
structure ChunkIn where
  ts_start : Nat
  ts_end : Nat
  lang_src : String
  engine : Option (List String × String)
  enqOk : Bool

/-- final_text = " ".join(segment.text.strip() for segment in segments).strip(). -/
def sttFinalText (segs : List String) : String :=
  pyStrip (pyJoin " " (segs.map pyStrip))

/-- if final_text and final_text[-1] not in ".!?": final_text += ".". -/
def addPunctuation (t : String) : String :=
  if t ≠ "" ∧ t.back ∉ ['.', '!', '?'] then t ++ "." else t

/-- STTWorker loop state: the sequence counter and the events accepted by
the downstream queue. -/
structure STTState where
  seq : Nat
  emitted : List Event
deriving Repr, DecidableEq

/-- self.seq = 0 at construction. -/
def sttInitState : STTState := ⟨0, []⟩

/-- One iteration of STTWorker.run on a dequeued chunk; none when the
engine call raised (there is no handler, so the exception escapes the
loop and the thread dies). -/
def sttStep (s : STTState) (c : ChunkIn) : Option STTState :=
  match c.engine with
  | none => none
  | some (segs, detected) =>
    let ft := sttFinalText segs
    if ft = "" then some s
    else
      let ft2 := addPunctuation ft
      let evt := make_event "final_transcript" s.seq detected detected ft2 true
        (some c.ts_start) (some c.ts_end)
      some { seq := s.seq + 1,
             emitted := s.emitted ++ if c.enqOk then [evt] else [] }

/-- The STT loop over a finite chunk sequence; stops (state frozen) at the
first chunk whose engine call raises. -/
def sttRun (s : STTState) : List ChunkIn → STTState
  | [] => s
  | c :: cs =>
    match sttStep s c with
    | none => s
    | some s2 => sttRun s2 cs

/-! ### Translation worker (TranslationWorker) -/

/-- One event dequeued by TranslationWorker.run together with the oracle
outcome of the engine call for it (none when generate/decode raised) and
whether the downstream put was accepted. -/
structure TLIn where
  evt : Event
  outcome : Option String
  enqOk : Bool

/-- Ghost record of one processed transcript: the context string prepended,
the exact input_text handed to the engine, and the source text. -/
structure CtxEntry where
  ctx : String
  engineInput : String
  src : String
deriving Repr, DecidableEq

/-- TranslationWorker state: whether the Marian model loaded (None
otherwise), target language, the last_translated dedupe cache, the
context_window deque (maxlen 1), the events accepted downstream, and the
ghost context log. -/
structure TLState where
  modelLoaded : Bool
  tgt_lang : String
  last_translated : Nat → Option String
  context_window : List String
  emitted : List Event
  ctxLog : List CtxEntry

/-- TranslationWorker.__init__: empty dedupe cache, empty context window;
a model-load exception is caught and leaves model = None. -/
def tlInitState (modelLoads : Bool) (tgt : String) : TLState :=
  ⟨modelLoads, tgt, fun _ => none, [], [], []⟩

/-- Python s[-n:] (character slicing; whole string when shorter than n). -/
def pyLastChars (n : Nat) (s : String) : String :=
  ⟨s.data.drop (s.data.length - n)⟩

/-- collections.deque(maxlen=m).append: drops from the left when over
capacity. -/
def dequeAppend (maxlen : Nat) (w : List String) (x : String) : List String :=
  let w2 := w ++ [x]
  w2.drop (w2.length - maxlen)

/-- One iteration of TranslationWorker.run on a dequeued event. -/
def tlStep (s : TLState) (inp : TLIn) : TLState :=
  let e := inp.evt
  if e.etype ≠ "final_transcript" then s
  else if e.text = "" then s
  else if s.last_translated e.seq = some e.text then s
  else
    let context := pyLastChars 150 (pyJoin " " s.context_window)
    let inputText := if context = "" then e.text else pyStrip (context ++ " " ++ e.text)
    let translated :=
      if s.modelLoaded then
        match inp.outcome with
        | some t => t
        | none => e.text
      else e.text
    let evt2 := make_event "final_translation" e.seq e.lang_src s.tgt_lang translated true
      e.start_ms e.end_ms
    { s with
      last_translated := Function.update s.last_translated e.seq (some e.text),
      context_window := dequeAppend 1 s.context_window e.text,
      emitted := s.emitted ++ if inp.enqOk then [evt2] else [],
      ctxLog := s.ctxLog ++ [⟨context, inputText, e.text⟩] }

/-- The translation loop over a finite event sequence. -/
def tlRun (s : TLState) : List TLIn → TLState
  | [] => s
  | i :: is => tlRun (tlStep s i) is

/-! ### Startup wiring (main) -/

/-- The stage objects alive after construction succeeds. -/
structure PipelineS where
  tts : TTSManagerS
  mt : TLState

/-- main(): tts_manager = TTSManager() is built first (its init failure is
caught internally); then, inside a try block whose only handler is for
KeyboardInterrupt, STTWorker.__init__ loads the Whisper model with no
exception handler (a load failure propagates and aborts the run), and
TranslationWorker.__init__ catches its own load failure (model = None). -/
def pipelineStartup (ttsLoads sttLoads mtLoads : Bool) (tgt : String) :
    Except String PipelineS :=
  let ttsm := TTSManagerS.init ttsLoads
  if sttLoads then .ok ⟨ttsm, tlInitState mtLoads tgt⟩
  else .error "whisper model load raised"

/-- Whether startup aborts the run (an uncaught exception escapes main). -/
def startupAborts (ttsLoads sttLoads mtLoads : Bool) (tgt : String) : Bool :=
  match pipelineStartup ttsLoads sttLoads mtLoads tgt with
  | .error _ => true
  | .ok _ => false

/-! ### Stated properties -/

/-- Context discipline along the translation ghost log: each processed
item's context is the last-150-character truncation of the join of the
window, and the window at each point holds exactly the previous processed
source text. -/
def ctxChain : List String → List CtxEntry → Prop
  | _, [] => True
  | w, en :: rest =>
    en.ctx = pyLastChars 150 (pyJoin " " w) ∧ ctxChain [en.src] rest

/-! ### Helper lemmas: VAD chunker runs -/

theorem FRAME_MS_eq : FRAME_MS = 30 := rfl

theorem CHUNK_MIN_MS_eq : CHUNK_MIN_MS = 200 := rfl

theorem vadRun_cons (lang : String) (s : VADState) (f : FrameIn) (fs : List FrameIn) :
    vadRun lang s (f :: fs) =
      ((vadRun lang (vadStep lang s f).1 fs).1,
        (vadStep lang s f).2.toList ++ (vadRun lang (vadStep lang s f).1 fs).2) := rfl

theorem vadRun_append (lang : String) (xs ys : List FrameIn) (s : VADState) :
    vadRun lang s (xs ++ ys) =
      ((vadRun lang (vadRun lang s xs).1 ys).1,
        (vadRun lang s xs).2 ++ (vadRun lang (vadRun lang s xs).1 ys).2) := by
  induction xs generalizing s with
  | nil => simp [vadRun]
  | cons f fs ih =>
    rw [List.cons_append, vadRun_cons, vadRun_cons, ih]
    simp [List.append_assoc]

theorem vadStep_sil_idle (lang : String) (buf : List Nat) (st ts sf : Nat) :
    vadStep lang ⟨buf, st, ts, false, sf⟩ openSil =
      (⟨buf, st, ts + FRAME_MS, false, sf + 1⟩, none) := by
  simp [vadStep, openSil]

theorem vadStep_sil_acc (lang : String) (buf : List Nat) (st ts sf : Nat)
    (h : sf + 1 ≤ 14) :
    vadStep lang ⟨buf, st, ts, true, sf⟩ openSil =
      (⟨buf ++ [ts], st, ts + FRAME_MS, true, sf + 1⟩, none) := by
  simp [vadStep, openSil, if_neg (by omega : ¬ 14 < sf + 1)]

theorem vadStep_sil_close (lang : String) (buf : List Nat) (st ts sf : Nat)
    (h : 14 < sf + 1) :
    vadStep lang ⟨buf, st, ts, true, sf⟩ openSil =
      (⟨[], st, ts + FRAME_MS, false, 0⟩,
        if CHUNK_MIN_MS ≤ chunkLenMs (buf ++ [ts]) then some ⟨st, ts, buf ++ [ts], lang⟩
        else none) := by
  simp [vadStep, openSil, if_pos h]

theorem vadStep_sp_idle (lang : String) (buf : List Nat) (st ts sf : Nat) :
    vadStep lang ⟨buf, st, ts, false, sf⟩ openSp =
      (⟨[ts], ts, ts + FRAME_MS, true, 0⟩, none) := by
  simp [vadStep, openSp]

theorem vadStep_sp_acc (lang : String) (buf : List Nat) (st ts sf : Nat) :
    vadStep lang ⟨buf, st, ts, true, sf⟩ openSp =
      (⟨buf ++ [ts], st, ts + FRAME_MS, true, sf⟩, none) := by
  simp [vadStep, openSp]

theorem tsList_length (n : Nat) : ∀ ts, (tsList ts n).length = n := by
  induction n with
  | zero => intro ts; simp [tsList]
  | succ m ih => intro ts; simp [tsList, ih]

theorem tsList_append (m n : Nat) : ∀ ts,
    tsList ts m ++ tsList (ts + FRAME_MS * m) n = tsList ts (m + n) := by
  induction m with
  | zero => intro ts; simp [tsList]
  | succ k ih =>
    intro ts
    have h : ts + FRAME_MS * (k + 1) = (ts + FRAME_MS) + FRAME_MS * k := by ring
    have h2 : k + 1 + n = (k + n) + 1 := by ring
    simp only [tsList, List.cons_append, h, ih, h2]

theorem tsList_concat (ts n : Nat) :
    tsList ts (n + 1) = tsList ts n ++ [ts + FRAME_MS * n] := by
  have := tsList_append n 1 ts
  simpa [tsList] using this.symm

theorem vadRun_idle_sil (lang : String) (n : Nat) :
    ∀ buf st ts sf, vadRun lang ⟨buf, st, ts, false, sf⟩ (List.replicate n openSil) =
      (⟨buf, st, ts + FRAME_MS * n, false, sf + n⟩, []) := by
  induction n with
  | zero => intro buf st ts sf; simp [vadRun]
  | succ m ih =>
    intro buf st ts sf
    have h1 : ts + FRAME_MS + FRAME_MS * m = ts + FRAME_MS * (m + 1) := by ring
    have h2 : sf + 1 + m = sf + (m + 1) := by ring
    rw [List.replicate_succ, vadRun_cons, vadStep_sil_idle, ih, h1, h2]
    simp

theorem vadRun_speech_acc (lang : String) (n : Nat) :
    ∀ buf st ts sf, vadRun lang ⟨buf, st, ts, true, sf⟩ (List.replicate n openSp) =
      (⟨buf ++ tsList ts n, st, ts + FRAME_MS * n, true, sf⟩, []) := by
  induction n with
  | zero => intro buf st ts sf; simp [vadRun, tsList]
  | succ m ih =>
    intro buf st ts sf
    have h1 : ts + FRAME_MS + FRAME_MS * m = ts + FRAME_MS * (m + 1) := by ring
    rw [List.replicate_succ, vadRun_cons, vadStep_sp_acc, ih, h1]
    simp [tsList, List.append_assoc]

theorem vadRun_speech_start (lang : String) (n : Nat) (hn : 1 ≤ n) :
    ∀ buf st ts sf, vadRun lang ⟨buf, st, ts, false, sf⟩ (List.replicate n openSp) =
      (⟨tsList ts n, ts, ts + FRAME_MS * n, true, 0⟩, []) := by
  obtain ⟨m, rfl⟩ : ∃ m, n = m + 1 := ⟨n - 1, by omega⟩
  intro buf st ts sf
  have h1 : ts + FRAME_MS + FRAME_MS * m = ts + FRAME_MS * (m + 1) := by ring
  rw [List.replicate_succ, vadRun_cons, vadStep_sp_idle, vadRun_speech_acc, h1]
  simp [tsList]

theorem vadRun_acc_sil (lang : String) (m : Nat) :
    ∀ buf st ts sf, sf + m ≤ 14 →
      vadRun lang ⟨buf, st, ts, true, sf⟩ (List.replicate m openSil) =
        (⟨buf ++ tsList ts m, st, ts + FRAME_MS * m, true, sf + m⟩, []) := by
  induction m with
  | zero => intro buf st ts sf _; simp [vadRun, tsList]
  | succ k ih =>
    intro buf st ts sf hsf
    have h1 : ts + FRAME_MS + FRAME_MS * k = ts + FRAME_MS * (k + 1) := by ring
    have h2 : sf + 1 + k = sf + (k + 1) := by ring
    rw [List.replicate_succ, vadRun_cons, vadStep_sil_acc lang buf st ts sf (by omega),
      ih _ _ _ _ (by omega), h1, h2]
    simp [tsList, List.append_assoc]

theorem chunkLenMs_frames (buf : List Nat) :
    chunkLenMs buf = FRAME_MS * buf.length := by
  simp only [chunkLenMs, bufBytes, FRAME_BYTES, SAMPLE_RATE, FRAME_MS]
  omega

/-! ### Claim theorems: VAD chunker -/

/-- C1 (counterexample): a gate-open sequence with a 7-frame (210ms ≥ 200ms)
speech run followed by exactly 14 silence frames — "at least the threshold
number (14) of silence-classified frames" — emits no chunk at all: the
close test is silence_frames > 14, so 14 trailing silence frames never
close the chunk. -/
theorem vad_fourteen_silence_insufficient :
    (vadRun "en" vadInit (List.replicate 7 openSp ++ List.replicate 14 openSil)).2 = [] := by
  decide

/-- C1 (amended): for every gate-open frame sequence consisting of a
leading silence frames, then a contiguous speech run of b frames of total
duration at least the minimum chunk duration, then c silence frames with c
strictly greater than the threshold 14 (i.e. at least 15), exactly one
AudioChunk is emitted; its start_ms is the timestamp of the first speech
frame, its end_ms is the timestamp of the last frame appended to the
buffer (the 15th trailing silence frame), and the buffer holds the b
speech frames plus the 15 trailing silence frames. -/
theorem vad_single_utterance (lang : String) (a b c : Nat)
    (hb : CHUNK_MIN_MS ≤ FRAME_MS * b) (hc : 15 ≤ c) :
    (vadRun lang vadInit
        (List.replicate a openSil ++ List.replicate b openSp ++ List.replicate c openSil)).2
      = [⟨FRAME_MS * a, FRAME_MS * (a + b + 14), tsList (FRAME_MS * a) (b + 15), lang⟩]
    ∧ (tsList (FRAME_MS * a) (b + 15)).getLast? = some (FRAME_MS * (a + b + 14)) := by
  have hb30 : (200 : Nat) ≤ 30 * b := by
    have hb2 := hb
    rw [CHUNK_MIN_MS_eq, FRAME_MS_eq] at hb2
    exact hb2
  have hb1 : 1 ≤ b := by omega
  have s1 : vadRun lang vadInit (List.replicate a openSil) =
      (⟨[], 0, FRAME_MS * a, false, a⟩, []) := by
    have := vadRun_idle_sil lang a [] 0 0 0
    simpa [vadInit] using this
  have s2 : vadRun lang ⟨[], 0, FRAME_MS * a, false, a⟩ (List.replicate b openSp) =
      (⟨tsList (FRAME_MS * a) b, FRAME_MS * a, FRAME_MS * a + FRAME_MS * b, true, 0⟩, []) :=
    vadRun_speech_start lang b hb1 [] 0 (FRAME_MS * a) a
  have s3 : vadRun lang
      ⟨tsList (FRAME_MS * a) b, FRAME_MS * a, FRAME_MS * a + FRAME_MS * b, true, 0⟩
      (List.replicate 14 openSil) =
      (⟨tsList (FRAME_MS * a) (b + 14), FRAME_MS * a,
        FRAME_MS * a + FRAME_MS * b + FRAME_MS * 14, true, 14⟩, []) := by
    have := vadRun_acc_sil lang 14 (tsList (FRAME_MS * a) b) (FRAME_MS * a)
      (FRAME_MS * a + FRAME_MS * b) 0 (by omega)
    rw [this, tsList_append b 14 (FRAME_MS * a)]
  have hbufeq : tsList (FRAME_MS * a) (b + 14) ++ [FRAME_MS * a + FRAME_MS * b + FRAME_MS * 14] =
      tsList (FRAME_MS * a) (b + 15) := by
    have h := (tsList_concat (FRAME_MS * a) (b + 14)).symm
    have harith : FRAME_MS * a + FRAME_MS * (b + 14) =
        FRAME_MS * a + FRAME_MS * b + FRAME_MS * 14 := by ring
    rw [harith] at h
    exact h
  have hmin : CHUNK_MIN_MS ≤ chunkLenMs (tsList (FRAME_MS * a) (b + 14) ++
      [FRAME_MS * a + FRAME_MS * b + FRAME_MS * 14]) := by
    rw [chunkLenMs_frames, CHUNK_MIN_MS_eq, FRAME_MS_eq]
    simp [tsList_length]
    omega
  have s4 : vadRun lang
      ⟨tsList (FRAME_MS * a) (b + 14), FRAME_MS * a,
        FRAME_MS * a + FRAME_MS * b + FRAME_MS * 14, true, 14⟩ [openSil] =
      (⟨[], FRAME_MS * a, FRAME_MS * a + FRAME_MS * b + FRAME_MS * 14 + FRAME_MS, false, 0⟩,
        [⟨FRAME_MS * a, FRAME_MS * (a + b + 14), tsList (FRAME_MS * a) (b + 15), lang⟩]) := by
    have hstep := vadStep_sil_close lang (tsList (FRAME_MS * a) (b + 14)) (FRAME_MS * a)
      (FRAME_MS * a + FRAME_MS * b + FRAME_MS * 14) 14 (by omega)
    rw [show ([openSil] : List FrameIn) = openSil :: [] from rfl, vadRun_cons, hstep]
    rw [if_pos hmin]
    have hend : FRAME_MS * a + FRAME_MS * b + FRAME_MS * 14 = FRAME_MS * (a + b + 14) := by ring
    have hbufeq2 : tsList (FRAME_MS * a) (b + 14) ++ [FRAME_MS * (a + b + 14)] =
        tsList (FRAME_MS * a) (b + 15) := by rw [← hend]; exact hbufeq
    simp [vadRun, hend, hbufeq2]
  have s5 : vadRun lang
      ⟨[], FRAME_MS * a, FRAME_MS * a + FRAME_MS * b + FRAME_MS * 14 + FRAME_MS, false, 0⟩
      (List.replicate (c - 15) openSil) =
      (⟨[], FRAME_MS * a,
        FRAME_MS * a + FRAME_MS * b + FRAME_MS * 14 + FRAME_MS + FRAME_MS * (c - 15),
        false, 0 + (c - 15)⟩, []) :=
    vadRun_idle_sil lang (c - 15) [] (FRAME_MS * a)
      (FRAME_MS * a + FRAME_MS * b + FRAME_MS * 14 + FRAME_MS) 0
  constructor
  · have hc2 : c = 14 + (1 + (c - 15)) := by omega
    rw [List.append_assoc, hc2, List.replicate_add, List.replicate_add]
    rw [vadRun_append, s1]
    dsimp only
    rw [vadRun_append, s2]
    dsimp only
    rw [vadRun_append, s3]
    dsimp only
    rw [vadRun_append, show (List.replicate 1 openSil) = [openSil] from rfl, s4]
    dsimp only
    rw [s5]
    simp
  · rw [← hbufeq, List.getLast?_concat]
    have hend : FRAME_MS * a + FRAME_MS * b + FRAME_MS * 14 = FRAME_MS * (a + b + 14) := by ring
    rw [hend]

/-- C1 witness: with no leading silence, a 7-frame speech run (210ms) and
15 trailing silence frames, exactly the predicted chunk is produced. -/
theorem vad_single_utterance_witness :
    CHUNK_MIN_MS ≤ FRAME_MS * 7 ∧ 15 ≤ 15 ∧
    ((vadRun "en" vadInit
        (List.replicate 0 openSil ++ List.replicate 7 openSp ++ List.replicate 15 openSil)).2
      = [⟨FRAME_MS * 0, FRAME_MS * (0 + 7 + 14), tsList (FRAME_MS * 0) (7 + 15), "en"⟩]) :=
  ⟨by decide, by decide, (vad_single_utterance "en" 0 7 15 (by decide) (by decide)).1⟩

/-- C2: when the gate transitions to Closed while the chunker is
accumulating, the step emits the in-progress buffer iff its accumulated
duration reaches the minimum chunk duration; the state resets to Idle
(in_speech false, empty buffer, zero silence counter); the emitted chunk
contains exactly the previously buffered frames (the gate-closed frame is
not buffered); and the gate-closed frame is never classified: the step's
result does not depend on its speech/silence classification. -/
theorem gate_close_flush (lang : String) (s : VADState) (sp : Bool) (h : s.inSpeech = true) :
    ((vadStep lang s ⟨true, sp⟩).2.isSome ↔ CHUNK_MIN_MS ≤ FRAME_MS * s.chunkBuffer.length)
    ∧ (vadStep lang s ⟨true, sp⟩).1 = ⟨[], s.chunkStartMs, s.tsMs + FRAME_MS, false, 0⟩
    ∧ (∀ ch, (vadStep lang s ⟨true, sp⟩).2 = some ch →
        ch.frames = s.chunkBuffer ∧ ch.start_ms = s.chunkStartMs ∧ ch.end_ms = s.tsMs + FRAME_MS)
    ∧ vadStep lang s ⟨true, true⟩ = vadStep lang s ⟨true, false⟩ := by
  have hcond : (CHUNK_MIN_MS * SAMPLE_RATE * 2 / 1000 ≤ bufBytes s.chunkBuffer) ↔
      CHUNK_MIN_MS ≤ FRAME_MS * s.chunkBuffer.length := by
    simp only [bufBytes, FRAME_BYTES, CHUNK_MIN_MS, SAMPLE_RATE, FRAME_MS]
    omega
  have hstep : ∀ b : Bool, vadStep lang s ⟨true, b⟩ =
      (⟨[], s.chunkStartMs, s.tsMs + FRAME_MS, false, 0⟩,
        if s.inSpeech ∧ CHUNK_MIN_MS * SAMPLE_RATE * 2 / 1000 ≤ bufBytes s.chunkBuffer then
          some ⟨s.chunkStartMs, s.tsMs + FRAME_MS, s.chunkBuffer, lang⟩
        else none) := by
    intro b
    simp [vadStep]
  refine ⟨?_, ?_, ?_, ?_⟩
  · rw [hstep]
    by_cases hcase : CHUNK_MIN_MS * SAMPLE_RATE * 2 / 1000 ≤ bufBytes s.chunkBuffer
    · rw [if_pos ⟨h, hcase⟩]
      simp [hcond.mp hcase]
    · rw [if_neg (fun hx => hcase hx.2)]
      constructor
      · intro hx
        simp at hx
      · intro hx
        exact absurd (hcond.mpr hx) hcase
  · rw [hstep]
  · intro ch hch
    rw [hstep] at hch
    by_cases hcase : CHUNK_MIN_MS * SAMPLE_RATE * 2 / 1000 ≤ bufBytes s.chunkBuffer
    · rw [if_pos ⟨h, hcase⟩] at hch
      cases hch
      exact ⟨rfl, rfl, rfl⟩
    · rw [if_neg (fun hx => hcase hx.2)] at hch
      cases hch
  · rw [hstep, hstep]

/-- C2 witness: a concrete accumulating state with a 7-frame (210ms)
buffer, flushed by a gate-closed frame. -/
theorem gate_close_flush_witness :
    ((vadStep "en" ⟨tsList 0 7, 0, 210, true, 3⟩ ⟨true, false⟩).2.isSome ↔
        CHUNK_MIN_MS ≤ FRAME_MS * (tsList 0 7).length)
    ∧ (vadStep "en" ⟨tsList 0 7, 0, 210, true, 3⟩ ⟨true, false⟩).1 = ⟨[], 0, 210 + FRAME_MS, false, 0⟩
    ∧ (∀ ch, (vadStep "en" ⟨tsList 0 7, 0, 210, true, 3⟩ ⟨true, false⟩).2 = some ch →
        ch.frames = tsList 0 7 ∧ ch.start_ms = 0 ∧ ch.end_ms = 210 + FRAME_MS)
    ∧ vadStep "en" ⟨tsList 0 7, 0, 210, true, 3⟩ ⟨true, true⟩ =
        vadStep "en" ⟨tsList 0 7, 0, 210, true, 3⟩ ⟨true, false⟩ :=
  gate_close_flush "en" ⟨tsList 0 7, 0, 210, true, 3⟩ false rfl

/-! ### Helper lemmas: STT worker -/

theorem sttRun_cons (s : STTState) (c : ChunkIn) (cs : List ChunkIn) :
    sttRun s (c :: cs) =
      (match sttStep s c with
        | none => s
        | some s2 => sttRun s2 cs) := rfl

theorem sttStep_none (s : STTState) (c : ChunkIn) (hc : c.engine = none) :
    sttStep s c = none := by
  simp [sttStep, hc]

theorem sttStep_emptyText (s : STTState) (c : ChunkIn) (segs : List String) (det : String)
    (hc : c.engine = some (segs, det)) (hft : sttFinalText segs = "") :
    sttStep s c = some s := by
  simp [sttStep, hc, hft]

theorem sttStep_emit (s : STTState) (c : ChunkIn) (segs : List String) (det : String)
    (hc : c.engine = some (segs, det)) (hft : sttFinalText segs ≠ "") :
    sttStep s c = some ⟨s.seq + 1, s.emitted ++
      if c.enqOk then
        [make_event "final_transcript" s.seq det det (addPunctuation (sttFinalText segs)) true
          (some c.ts_start) (some c.ts_end)]
      else []⟩ := by
  simp [sttStep, hc, hft]

theorem sttRun_emit_inv (cs : List ChunkIn) :
    ∀ s : STTState,
      (∀ e ∈ s.emitted, e.seq < s.seq) →
      List.Pairwise (fun e1 e2 => e1.seq < e2.seq) s.emitted →
      (∀ e ∈ (sttRun s cs).emitted, e.seq < (sttRun s cs).seq) ∧
      List.Pairwise (fun e1 e2 => e1.seq < e2.seq) (sttRun s cs).emitted := by
  induction cs with
  | nil =>
    intro s h hp
    exact ⟨h, hp⟩
  | cons c cs ih =>
    intro s h hp
    cases hc : c.engine with
    | none =>
      rw [sttRun_cons, sttStep_none s c hc]
      exact ⟨h, hp⟩
    | some p =>
      obtain ⟨segs, det⟩ := p
      by_cases hft : sttFinalText segs = ""
      · rw [sttRun_cons, sttStep_emptyText s c segs det hc hft]
        exact ih s h hp
      · rw [sttRun_cons, sttStep_emit s c segs det hc hft]
        apply ih
        · intro e he
          rcases List.mem_append.mp he with h1 | h2
          · exact Nat.lt_succ_of_lt (h e h1)
          · have he2 : e.seq = s.seq := by
              by_cases hk : c.enqOk
              · simp only [hk, if_true, List.mem_singleton] at h2
                rw [h2]
                rfl
              · simp [hk] at h2
            have hgoal : e.seq < s.seq + 1 := by omega
            exact hgoal
        · apply List.pairwise_append.mpr
          refine ⟨hp, ?_, ?_⟩
          · by_cases hk : c.enqOk <;> simp [hk]
          · intro a ha b hb
            have hb2 : b.seq = s.seq := by
              by_cases hk : c.enqOk
              · simp only [hk, if_true, List.mem_singleton] at hb
                rw [hb]
                rfl
              · simp [hk] at hb
            rw [hb2]
            exact h a ha

/-! ### Claim theorems: STT worker -/

/-- C3 (counterexample): two chunks, both transcribed successfully, the
first one's downstream put failing with queue.Full, the second accepted —
self.seq += 1 runs after the failed put as well, so the one successfully
emitted event carries sequence number 1 (0 is skipped) and the counter ends
at 2 after a single successful emission: the counter does not advance only
on successful emission. -/
theorem stt_counter_advances_on_drop :
    ((sttRun sttInitState
        [⟨0, 600, "en", some (["Hello"], "en"), false⟩,
         ⟨700, 1300, "en", some (["World"], "en"), true⟩]).emitted.map Event.seq = [1])
    ∧ (sttRun sttInitState
        [⟨0, 600, "en", some (["Hello"], "en"), false⟩,
         ⟨700, 1300, "en", some (["World"], "en"), true⟩]).emitted.length = 1
    ∧ (sttRun sttInitState
        [⟨0, 600, "en", some (["Hello"], "en"), false⟩,
         ⟨700, 1300, "en", some (["World"], "en"), true⟩]).seq = 2 := by
  decide

/-- C3 (amended): the sequence numbers of the FinalTranscript events
accepted downstream are strictly increasing (hence never reused) for every
interleaving of engine outcomes and enqueue outcomes; and the counter
advances by exactly one on every successful engine call returning
non-empty text, regardless of whether the downstream enqueue succeeds. -/
theorem stt_seq_monotone :
    (∀ cs : List ChunkIn,
        List.Pairwise (fun e1 e2 => e1.seq < e2.seq) (sttRun sttInitState cs).emitted)
    ∧ (∀ (s : STTState) (c : ChunkIn) (segs : List String) (det : String),
        c.engine = some (segs, det) → sttFinalText segs ≠ "" →
          (sttStep s c).map STTState.seq = some (s.seq + 1)) := by
  constructor
  · intro cs
    exact (sttRun_emit_inv cs sttInitState (by simp [sttInitState]) (by simp [sttInitState])).2
  · intro s c segs det hc hft
    rw [sttStep_emit s c segs det hc hft]
    rfl

/-- C3 witness: the strict-increase holds on the counterexample input, and
one successful non-empty transcription advances the counter from 0 to 1
even with the enqueue failing. -/
theorem stt_seq_monotone_witness :
    List.Pairwise (fun e1 e2 => e1.seq < e2.seq)
      (sttRun sttInitState
        [⟨0, 600, "en", some (["Hello"], "en"), false⟩,
         ⟨700, 1300, "en", some (["World"], "en"), true⟩]).emitted
    ∧ (⟨0, 600, "en", some (["Hello"], "en"), false⟩ : ChunkIn).engine = some (["Hello"], "en")
    ∧ sttFinalText ["Hello"] ≠ ""
    ∧ (sttStep sttInitState ⟨0, 600, "en", some (["Hello"], "en"), false⟩).map STTState.seq
        = some 1 :=
  ⟨stt_seq_monotone.1 _, rfl, by decide,
    stt_seq_monotone.2 sttInitState ⟨0, 600, "en", some (["Hello"], "en"), false⟩ ["Hello"] "en"
      rfl (by decide)⟩

/-- C5 (counterexample): a run in which the first chunk's engine call
raises terminates the Transcriber loop: the second, perfectly good chunk is
never processed and nothing is emitted, although the same second chunk
alone would have produced one emission — the engine error is fatal to the
stage, not recovered by dropping the one item. -/
theorem stt_engine_error_kills_stage :
    sttRun sttInitState
        [⟨0, 600, "en", none, true⟩, ⟨700, 1300, "en", some (["Hi"], "en"), true⟩]
      = sttInitState
    ∧ (sttRun sttInitState [⟨700, 1300, "en", some (["Hi"], "en"), true⟩]).emitted.length = 1 := by
  decide

/-! ### Helper lemmas: translation worker -/

theorem tlRun_cons (s : TLState) (i : TLIn) (is : List TLIn) :
    tlRun s (i :: is) = tlRun (tlStep s i) is := rfl

theorem dequeAppend_one (w : List String) (x : String) : dequeAppend 1 w x = [x] := by
  unfold dequeAppend
  exact List.drop_left' (by simp)

theorem tlStep_skip (s : TLState) (inp : TLIn)
    (h : inp.evt.etype ≠ "final_transcript" ∨ inp.evt.text = "" ∨
      s.last_translated inp.evt.seq = some inp.evt.text) :
    tlStep s inp = s := by
  rcases h with h | h | h
  · simp [tlStep, h]
  · simp [tlStep, h]
  · simp [tlStep, h]

theorem tlStep_process (s : TLState) (inp : TLIn)
    (h1 : inp.evt.etype = "final_transcript") (h2 : inp.evt.text ≠ "")
    (h3 : s.last_translated inp.evt.seq ≠ some inp.evt.text) :
    tlStep s inp = { s with
      last_translated := Function.update s.last_translated inp.evt.seq (some inp.evt.text),
      context_window := [inp.evt.text],
      emitted := s.emitted ++
        (if inp.enqOk then
          [make_event "final_translation" inp.evt.seq inp.evt.lang_src s.tgt_lang
            (if s.modelLoaded then
              (match inp.outcome with
                | some t => t
                | none => inp.evt.text)
             else inp.evt.text) true inp.evt.start_ms inp.evt.end_ms]
         else []),
      ctxLog := s.ctxLog ++
        [⟨pyLastChars 150 (pyJoin " " s.context_window),
          (if pyLastChars 150 (pyJoin " " s.context_window) = "" then inp.evt.text
           else pyStrip (pyLastChars 150 (pyJoin " " s.context_window) ++ " " ++ inp.evt.text)),
          inp.evt.text⟩] } := by
  simp [tlStep, h1, h2, h3, dequeAppend_one]

theorem tlRun_ctx (inputs : List TLIn) :
    ∀ s : TLState, ∃ suf : List CtxEntry,
      (tlRun s inputs).ctxLog = s.ctxLog ++ suf ∧
      ctxChain s.context_window suf ∧
      (tlRun s inputs).context_window =
        (match suf.getLast? with
          | none => s.context_window
          | some en => [en.src]) := by
  induction inputs with
  | nil =>
    intro s
    exact ⟨[], by simp [tlRun], trivial, rfl⟩
  | cons i is ih =>
    intro s
    by_cases h1 : i.evt.etype = "final_transcript"
    · by_cases h2 : i.evt.text = ""
      · rw [tlRun_cons, tlStep_skip s i (Or.inr (Or.inl h2))]
        exact ih s
      · by_cases h3 : s.last_translated i.evt.seq = some i.evt.text
        · rw [tlRun_cons, tlStep_skip s i (Or.inr (Or.inr h3))]
          exact ih s
        · obtain ⟨suf, hlog, hchain, hwin⟩ := ih (tlStep s i)
          refine ⟨⟨pyLastChars 150 (pyJoin " " s.context_window),
            (if pyLastChars 150 (pyJoin " " s.context_window) = "" then i.evt.text
             else pyStrip (pyLastChars 150 (pyJoin " " s.context_window) ++ " " ++ i.evt.text)),
            i.evt.text⟩ :: suf, ?_, ?_, ?_⟩
          · rw [tlRun_cons, hlog, tlStep_process s i h1 h2 h3]
            simp
          · refine ⟨rfl, ?_⟩
            rw [tlStep_process s i h1 h2 h3] at hchain
            simpa using hchain
          · rw [tlRun_cons, hwin]
            cases suf with
            | nil =>
              simp [tlStep_process s i h1 h2 h3]
            | cons en2 suf2 =>
              rw [List.getLast?_cons_cons]
              cases hgl : (en2 :: suf2).getLast? with
              | none => exact absurd (List.getLast?_eq_none_iff.mp hgl) (by simp)
              | some en => rfl
    · rw [tlRun_cons, tlStep_skip s i (Or.inl h1)]
      exact ih s

/-! ### Claim theorems: translation worker, TTS manager, startup -/

/-- C4 (counterexample): two FinalTranscripts with the same sequence
number 5 but different texts are both translated and both emitted: the
dedupe cache compares the cached text, so a distinct text under the same
sequence number passes, and two FinalTranslations with sequence number 5
are produced. -/
theorem translator_dedup_counterexample :
    ((tlRun (tlInitState true "de")
        [⟨make_event "final_transcript" 5 "en" "en" "Hello." true (some 0) (some 600),
          some "Hallo.", true⟩,
         ⟨make_event "final_transcript" 5 "en" "en" "World." true (some 700) (some 1300),
          some "Welt.", true⟩]).emitted.map Event.seq) = [5, 5] := by
  decide

/-- C4 (amended): delivering the same FinalTranscript (same sequence
number and same text) twice in a row produces the same run result as
delivering it once — the duplicate is skipped by the cache lookup — for
every state, engine outcome and enqueue outcome; the guarantee is keyed on
the cached text for the sequence number, not on the sequence number
alone. -/
theorem translator_dedup_consecutive (s : TLState) (e : Event) (o1 o2 : Option String)
    (k1 k2 : Bool) (rest : List TLIn) :
    tlRun s (⟨e, o1, k1⟩ :: ⟨e, o2, k2⟩ :: rest) = tlRun s (⟨e, o1, k1⟩ :: rest) := by
  have key : tlStep (tlStep s ⟨e, o1, k1⟩) ⟨e, o2, k2⟩ = tlStep s ⟨e, o1, k1⟩ := by
    by_cases h1 : e.etype = "final_transcript"
    · by_cases h2 : e.text = ""
      · rw [tlStep_skip s ⟨e, o1, k1⟩ (Or.inr (Or.inl h2)),
          tlStep_skip s ⟨e, o2, k2⟩ (Or.inr (Or.inl h2))]
      · by_cases h3 : s.last_translated e.seq = some e.text
        · rw [tlStep_skip s ⟨e, o1, k1⟩ (Or.inr (Or.inr h3)),
            tlStep_skip s ⟨e, o2, k2⟩ (Or.inr (Or.inr h3))]
        · rw [tlStep_process s ⟨e, o1, k1⟩ h1 h2 h3]
          apply tlStep_skip
          right; right
          simp [Function.update_same]
    · rw [tlStep_skip s ⟨e, o1, k1⟩ (Or.inl h1), tlStep_skip s ⟨e, o2, k2⟩ (Or.inl h1)]
  rw [tlRun_cons, tlRun_cons, key, ← tlRun_cons]

/-- C8: when the translation model is unavailable (load failed) or the
engine call raises, a processed FinalTranscript still yields a
FinalTranslation whose text is the untranslated source text; the event is
built and enqueued rather than dropped. -/
theorem translation_failure_passthrough (s : TLState) (e : Event) (o : Option String)
    (h1 : e.etype = "final_transcript") (h2 : e.text ≠ "")
    (h3 : s.last_translated e.seq ≠ some e.text)
    (h4 : s.modelLoaded = false ∨ o = none) :
    (tlStep s ⟨e, o, true⟩).emitted =
      s.emitted ++ [make_event "final_translation" e.seq e.lang_src s.tgt_lang e.text true
        e.start_ms e.end_ms] := by
  rw [tlStep_process s ⟨e, o, true⟩ h1 h2 h3]
  rcases h4 with h4 | h4
  · simp [h4]
  · subst h4
    by_cases hm : s.modelLoaded <;> simp [hm]

/-- C8 witness: with the model unavailable and the engine outcome an
exception, the transcript "Hello." at sequence 5 is emitted untranslated. -/
theorem translation_failure_passthrough_witness :
    (make_event "final_transcript" 5 "en" "en" "Hello." true (some 0) (some 600)).etype
        = "final_transcript"
    ∧ (make_event "final_transcript" 5 "en" "en" "Hello." true (some 0) (some 600)).text ≠ ""
    ∧ (tlInitState false "de").last_translated 5 ≠ some "Hello."
    ∧ (tlStep (tlInitState false "de")
        ⟨make_event "final_transcript" 5 "en" "en" "Hello." true (some 0) (some 600),
          none, true⟩).emitted
      = [make_event "final_translation" 5 "en" "de" "Hello." true (some 0) (some 600)] :=
  ⟨rfl, by decide, by decide,
    translation_failure_passthrough (tlInitState false "de")
      (make_event "final_transcript" 5 "en" "en" "Hello." true (some 0) (some 600)) none
      rfl (by decide) (by decide) (Or.inl rfl)⟩

/-- C5 (amended): a single engine failure is recovered locally by the
Translator (the event is emitted with the source text passed through and
the loop continues with the remaining items) and by the Synthesizer worker
(the cycle completes and later requests are still serviced), but an engine
error in the Transcriber terminates that stage's loop: the erroring chunk
and every later chunk are lost. -/
theorem engine_failure_policy :
    (∀ (s : STTState) (c : ChunkIn) (rest : List ChunkIn),
        c.engine = none → sttRun s (c :: rest) = s)
    ∧ (∀ (s : TLState) (e : Event) (rest : List TLIn),
        e.etype = "final_transcript" → e.text ≠ "" →
        s.last_translated e.seq ≠ some e.text →
          ((tlStep s ⟨e, none, true⟩).emitted =
            s.emitted ++ [make_event "final_translation" e.seq e.lang_src s.tgt_lang e.text true
              e.start_ms e.end_ms]
          ∧ tlRun s (⟨e, none, true⟩ :: rest) = tlRun (tlStep s ⟨e, none, true⟩) rest))
    ∧ (∀ (t : String) (errs : Bool) (rest : List (String × Bool)),
        ttsWorkerRun ((t, errs) :: rest) = ttsSpeakCycle errs ++ ttsWorkerRun rest) := by
  refine ⟨?_, ?_, ?_⟩
  · intro s c rest hc
    rw [sttRun_cons, sttStep_none s c hc]
  · intro s e rest h1 h2 h3
    refine ⟨?_, rfl⟩
    rw [tlStep_process s ⟨e, none, true⟩ h1 h2 h3]
    by_cases hm : s.modelLoaded <;> simp [hm]
  · intro t errs rest
    rfl

/-- C5 witness: the Transcriber halts on an engine error; the Translator
emits "Hello." as pass-through on an engine exception and keeps going; the
Synthesizer worker keeps going after an erroring cycle. -/
theorem engine_failure_policy_witness :
    ((⟨0, 600, "en", none, true⟩ : ChunkIn).engine = none
      ∧ sttRun sttInitState [⟨0, 600, "en", none, true⟩] = sttInitState)
    ∧ ((make_event "final_transcript" 5 "en" "en" "Hello." true (some 0) (some 600)).etype
          = "final_transcript"
      ∧ (tlStep (tlInitState true "de")
          ⟨make_event "final_transcript" 5 "en" "en" "Hello." true (some 0) (some 600),
            none, true⟩).emitted
        = [make_event "final_translation" 5 "en" "de" "Hello." true (some 0) (some 600)])
    ∧ ttsWorkerRun [("Hallo.", true), ("Welt.", false)]
        = ttsSpeakCycle true ++ ttsWorkerRun [("Welt.", false)] :=
  ⟨⟨rfl, engine_failure_policy.1 sttInitState ⟨0, 600, "en", none, true⟩ [] rfl⟩,
   ⟨rfl, (engine_failure_policy.2.1 (tlInitState true "de")
      (make_event "final_transcript" 5 "en" "en" "Hello." true (some 0) (some 600)) []
      rfl (by decide) (by decide)).1⟩,
   engine_failure_policy.2.2 "Hallo." true [("Welt.", false)]⟩

/-- C10: along every run of the Translator from its initial state, each
processed transcript's context is the last-150-character truncation of the
window holding exactly the previously processed source text (empty for the
first processed transcript), the current source text enters the window
only after its own processing, and skipped transcripts (wrong type, empty
text, dedupe hit) never change the window. -/
theorem translator_context_discipline (m : Bool) (tgt : String) (inputs : List TLIn) :
    ctxChain [] (tlRun (tlInitState m tgt) inputs).ctxLog
    ∧ (tlRun (tlInitState m tgt) inputs).context_window =
        (match (tlRun (tlInitState m tgt) inputs).ctxLog.getLast? with
          | none => []
          | some en => [en.src]) := by
  obtain ⟨suf, hlog, hchain, hwin⟩ := tlRun_ctx inputs (tlInitState m tgt)
  have hlog2 : (tlRun (tlInitState m tgt) inputs).ctxLog = suf := by
    simpa [tlInitState] using hlog
  constructor
  · rw [hlog2]
    exact hchain
  · rw [hlog2, hwin]
    cases suf.getLast? <;> rfl

/-- C9: in every synthesis cycle of the TTS worker, whether or not the
synthesis call raises, the cycle starts by engaging the speaking gate,
engage strictly precedes the start of synthesis, the cool-down comes after
synthesis and before release, releasing the gate is the last action, and
each of engage and release happens exactly once. -/
theorem tts_gate_cycle_order (errs : Bool) :
    (ttsSpeakCycle errs).head? = some TTSEv.engage
    ∧ (ttsSpeakCycle errs).getLast? = some TTSEv.release
    ∧ List.indexOf TTSEv.engage (ttsSpeakCycle errs) <
        List.indexOf TTSEv.sayStart (ttsSpeakCycle errs)
    ∧ List.indexOf TTSEv.sayStart (ttsSpeakCycle errs) <
        List.indexOf TTSEv.cooldown (ttsSpeakCycle errs)
    ∧ List.indexOf TTSEv.cooldown (ttsSpeakCycle errs) <
        List.indexOf TTSEv.release (ttsSpeakCycle errs)
    ∧ (ttsSpeakCycle errs).count TTSEv.engage = 1
    ∧ (ttsSpeakCycle errs).count TTSEv.release = 1 := by
  cases errs <;> decide

/-- C7 (counterexample): the TTS request queue is constructed as
queue.Queue() with no capacity argument, i.e. maxsize 0, which in Python
means unbounded; nine consecutive speak() calls (one more than the
pipeline's channel capacity QUEUE_SIZE = 8) are all accepted and the queue
grows to length 9 — no request is ever discarded for fullness. -/
theorem tts_queue_unbounded_counterexample :
    (TTSManagerS.init true).tts_queue.maxsize = 0
    ∧ ((List.replicate 9 "x").foldl TTSManagerS.speak (TTSManagerS.init true)).tts_queue.items.length = 9
    ∧ QUEUE_SIZE = 8 := by
  decide

/-- C7 (amended): the speak() enqueue is non-blocking and would silently
discard a request when the queue reports full, but the request queue is
created without a capacity bound (maxsize 0), so the full condition never
holds and every request is appended. -/
theorem tts_speak_nonblocking :
    (∀ (m : TTSManagerS) (t : String), m.tts_queue.maxsize = 0 → m.engine = true →
        (TTSManagerS.speak m t).tts_queue.items = m.tts_queue.items ++ [t])
    ∧ (∀ (q : PyQueue) (x : String), q.isFull = true → q.putNowait x = (q, false)) := by
  constructor
  · intro m t hq he
    simp [TTSManagerS.speak, he, PyQueue.putNowait, PyQueue.isFull, hq]
  · intro q x hf
    simp [PyQueue.putNowait, hf]

/-- C7 witness: a speak on the freshly constructed manager appends, and a
put on a genuinely full (bounded) queue is silently rejected. -/
theorem tts_speak_nonblocking_witness :
    (TTSManagerS.init true).tts_queue.maxsize = 0
    ∧ (TTSManagerS.init true).engine = true
    ∧ (TTSManagerS.speak (TTSManagerS.init true) "Guten Tag").tts_queue.items
        = [] ++ ["Guten Tag"]
    ∧ (⟨1, ["a"]⟩ : PyQueue).isFull = true
    ∧ (⟨1, ["a"]⟩ : PyQueue).putNowait "b" = (⟨1, ["a"]⟩, false) :=
  ⟨rfl, rfl, tts_speak_nonblocking.1 (TTSManagerS.init true) "Guten Tag" rfl rfl,
   by decide, tts_speak_nonblocking.2 ⟨1, ["a"]⟩ "b" (by decide)⟩

/-- C6 (counterexample): a translation-model load failure does not abort
startup (the constructor catches it, leaving model = None), and a TTS
engine init failure does not abort startup either; the run then proceeds
with a pass-through translator. Only the claim's transcription case
matches the code. -/
theorem init_failure_not_fatal_counterexample :
    startupAborts true true false "de" = false
    ∧ startupAborts false true true "de" = false
    ∧ pipelineStartup true true false "de"
        = .ok ⟨TTSManagerS.init true, tlInitState false "de"⟩ :=
  ⟨rfl, rfl, rfl⟩

/-- C6 (amended): startup aborts if and only if the Whisper (transcription)
model load raises; translation-model and TTS-engine init failures are
caught and the run continues in a degraded mode. -/
theorem startup_abort_iff_stt (t s m : Bool) (tgt : String) :
    startupAborts t s m tgt = true ↔ s = false := by
  cases s <;> simp [startupAborts, pipelineStartup]

end Pipeline
